import Mathlib

/-!
# Shallow embedding of `assignment_2/part1/train.py`

The repository is a training driver for small recurrent sequence models.
This file embeds the driver's own logic — configuration handling, model
selection, the training loop, statistics, the experiment sweep and the
entry-point dispatch — as executable Lean definitions, and proves the
specification claims about them.

External collaborators (the recurrent cells, the autodiff engine, the
optimizer and the palindrome dataset generator) are not implemented in the
repository; they are represented here by abstract oracles (the step-indexed
`forward` function giving the external model's predictions on each batch)
and by construction events recorded in an event trace.  Effectful library
calls (`torch.save`, `numpy.save`, constructing the dataset, the loader,
the criterion and the optimizer, and the per-batch autodiff operations)
are modelled as entries of that trace, in the order the script performs
them.  Real-valued quantities are embedded as rationals.
-/

namespace TrainPy

/-- The parsed command-line configuration (the `argparse` namespace built at
lines 197-225 of `train.py`).  `train_steps` is embedded as `Nat`, which is
exactly the `train_steps >= 0` regime the claims consider. -/
structure Config where
  model_type : String
  input_length : Nat
  input_dim : Nat
  num_classes : Nat
  num_hidden : Nat
  batch_size : Nat
  learning_rate : ℚ
  train_steps : Nat
  max_norm : ℚ
  device : String
  experiment : Bool
  print_every : Nat
deriving Repr, DecidableEq

/-- The keyword arguments passed to the three model constructors at
lines 70-89 of `train.py`; all three calls pass this same record. -/
structure ModelArgs where
  seq_length : Nat
  input_dim : Nat
  num_hidden : Nat
  num_classes : Nat
  batch_size : Nat
  device : String
deriving Repr, DecidableEq, Inhabited

/-- One of the three external model objects the driver can construct. -/
inductive Model where
  | vanillaRNN (args : ModelArgs)
  | lstm (args : ModelArgs)
  | rrn (args : ModelArgs)
deriving Repr, DecidableEq, Inhabited

/-- Python's `str.lower()` on one character (ASCII range; the configuration
strings the script compares against are ASCII). -/
def pyLowerChar (c : Char) : Char :=
  if 'A' ≤ c ∧ c ≤ 'Z' then Char.ofNat (c.toNat + 32) else c

/-- Python's `str.lower()`, as called at lines 55 and 59 of `train.py`. -/
def pyLower (s : String) : String :=
  String.mk (s.data.map pyLowerChar)

/-- Device selection, lines 59-65: `config.device.lower()`; `'cuda'` is used
only when requested and available, otherwise `'cpu'`. -/
def selectDevice (cfg : Config) (cudaAvailable : Bool) : String :=
  if pyLower cfg.device = "cuda" then
    (if cudaAvailable then "cuda" else "cpu")
  else "cpu"

/-- The `if/elif` chain at lines 69-89 of `train.py`, selecting the model
class by the (already lowercased) `model_type` and passing the constructor
arguments.  `none` is the fall-through where the Python script would leave
`model` unbound. -/
def buildModel (cfg : Config) (device : String) : Option Model :=
  let args : ModelArgs :=
    { seq_length := cfg.input_length
      input_dim := cfg.input_dim
      num_hidden := cfg.num_hidden
      num_classes := cfg.num_classes
      batch_size := cfg.batch_size
      device := device }
  if cfg.model_type = "rnn" then some (Model.vanillaRNN args)
  else if cfg.model_type = "lstm" then some (Model.lstm args)
  else if cfg.model_type = "rrn" then some (Model.rrn args)
  else none

/-- The membership test of the assertion at line 56:
`config.model_type in ('rnn', 'lstm', 'rrn')`. -/
def validModelType (s : String) : Prop :=
  s = "rnn" ∨ s = "lstm" ∨ s = "rrn"

instance (s : String) : Decidable (validModelType s) := by
  unfold validModelType; infer_instance

/-- A batch drawn from the data loader: `(batch_inputs, batch_targets)` at
line 106.  Inputs are per-example sequences of rationals, targets are class
labels. -/
structure Batch where
  inputs : List (List ℚ)
  targets : List Nat
deriving Repr, DecidableEq, Inhabited

/-- One entry of the event trace: an effectful library call the driver
performs, in program order. -/
inductive Event where
  | modelInit (m : Model)
  | datasetInit (seq_length : Nat)
  | loaderInit (batch_size num_workers : Nat)
  | criterionInit
  | optimizerInit (lr : ℚ)
  | forwardPass
  | crossEntropyLoss
  | zeroGrad
  | backwardPass
  | clipGradNorm (max_norm : ℚ)
  | optimizerStep
  | recordAcc (step : Nat) (acc : ℚ)
  | torchSave (file : String)
  | numpySave (file : String)
deriving Repr, DecidableEq

/-- First index of a maximal element of the list (`0` on the empty list).
This is the shared semantics of `torch.argmax` (line 41) and `numpy.argmax`
(line 164): when the maximum is attained several times, the index of its
first occurrence is returned. -/
def argmax (xs : List ℚ) : Nat :=
  xs.findIdx (fun x => xs.all (fun y => y ≤ x))

/-- The elementwise tensor comparison `predictions.argmax(dim=1) == label`
of line 41: the boolean mask pairing each example's predicted class with its
label. -/
def eqMask (predClasses : List Nat) (label : List Nat) : List Bool :=
  (predClasses.zip label).map (fun p => p.1 == p.2)

/-- `torch.sum` over a boolean mask (line 41): the number of `true`
entries, summed left to right. -/
def torchSum (mask : List Bool) : Nat :=
  mask.foldl (fun a b => a + (if b then 1 else 0)) 0

/-- `accuracy` (lines 39-41 of `train.py`):
`torch.sum(predictions.argmax(dim=1) == label).to(torch.float) / config.batch_size`. -/
def accuracy (predictions : List (List ℚ)) (label : List Nat) (cfg : Config) : ℚ :=
  (torchSum (eqMask (predictions.map argmax) label) : ℚ) / (cfg.batch_size : ℚ)

/-- Normalisation of one slice bound by Python/numpy basic slicing over a
sequence of length `n`: a negative bound counts from the end, then both are
clamped into `[0, n]`. -/
def pyBound (n : Nat) (i : Int) : Nat :=
  if i < 0 then (max 0 (i + n)).toNat else min i.toNat n

/-- Python/numpy basic slice `xs[i:j]` (unit stride), as used at line 150. -/
def pySlice (xs : List ℚ) (i j : Int) : List ℚ :=
  (xs.take (pyBound xs.length j)).drop (pyBound xs.length i)

/-- The moving-average window `train_acc[step-4:step+1]` of line 150. -/
def movingSlice (train_acc : List ℚ) (step : Nat) : List ℚ :=
  pySlice train_acc ((step : Int) - 4) ((step : Int) + 1)

/-- `acc_MA = train_acc[step-4:step+1].sum()/5` (line 150). -/
def movingAverage (train_acc : List ℚ) (step : Nat) : ℚ :=
  (movingSlice train_acc step).sum / 5

/-- The per-batch operations of the loop body, lines 116-134 of `train.py`,
in program order: forward pass, cross-entropy loss, `optimizer.zero_grad()`,
`loss.backward()`, `clip_grad_norm_(..., max_norm=config.max_norm)`,
`optimizer.step()`, and the write `train_acc[step] = accuracy(...)`. -/
def stepTrace (cfg : Config) (step : Nat) (acc : ℚ) : List Event :=
  [Event.forwardPass, Event.crossEntropyLoss, Event.zeroGrad,
   Event.backwardPass, Event.clipGradNorm cfg.max_norm,
   Event.optimizerStep, Event.recordAcc step acc]

/-- Result of running the `for step, (batch_inputs, batch_targets) in
enumerate(data_loader)` loop. -/
structure LoopOut where
  accs : List ℚ
  events : List Event
  processed : Nat
deriving Repr, DecidableEq

/-- The training loop, lines 106-154 of `train.py`.  `forward` is the
external model's prediction oracle at each step (its parameters change with
every optimizer step, so it is indexed by the step counter).  Each iteration
performs the loop-body operations, records the batch accuracy at index
`step` of the accuracy array, then breaks when `step == config.train_steps`
or when the moving average of the last five recorded accuracies equals
exactly `1.0`. -/
def trainLoop (cfg : Config) (forward : Nat → Batch → List (List ℚ)) :
    List Batch → Nat → List ℚ → LoopOut
  | [], _, arr => ⟨arr, [], 0⟩
  | b :: bs, step, arr =>
    let preds := forward step b
    let a := accuracy preds b.targets cfg
    let arr' := arr.set step a
    if step = cfg.train_steps ∨ movingAverage arr' step = 1 then
      ⟨arr', stepTrace cfg step a, 1⟩
    else
      let rest := trainLoop cfg forward bs (step + 1) arr'
      ⟨rest.accs, stepTrace cfg step a ++ rest.events, rest.processed + 1⟩

/-- The statistics dictionary assembled at lines 161-169 of `train.py`. -/
structure Stats where
  last_acc : ℚ
  best_acc : ℚ
  step_best_acc : Nat
  num_steps : Nat
  accs : List ℚ
deriving Repr, DecidableEq

/-- Lines 161-169: `train_acc[-1]`, `np.argmax(train_acc)`, the value at
that index, `len(train_acc)` and the array itself. -/
def mkStats (train_acc : List ℚ) : Stats :=
  let first_best_acc := argmax train_acc
  { last_acc := train_acc.getLastD 0
    best_acc := train_acc.getD first_best_acc 0
    step_best_acc := first_best_acc
    num_steps := train_acc.length
    accs := train_acc }

/-- What `train` produces when it does not raise: the (mutated) config, the
constructed model, the final accuracy array, the number of batches
processed, and the statistics dictionary when `config.experiment` is set. -/
structure TrainResult where
  finalConfig : Config
  model : Model
  accs : List ℚ
  processed : Nat
  stats : Option Stats
deriving Repr, DecidableEq

/-- Line 55 of `train.py`: `config.model_type = config.model_type.lower()`,
mutating the configuration in place. -/
def normConfig (cfg : Config) : Config :=
  { cfg with model_type := pyLower cfg.model_type }

/-- `train(config)` (lines 50-169 of `train.py`).  The config's
`model_type` is lowercased in place (line 55); the assertion at line 56
raises before anything is constructed; then the model, the palindrome
dataset of sequence length `input_length + 1`, the loader with
`num_workers=0`, the cross-entropy criterion and the RMSprop optimizer are
set up; the loop runs; the model and the accuracy array are saved; and the
statistics dictionary is returned when `config.experiment` is truthy. -/
def train (cfg0 : Config) (cudaAvailable : Bool)
    (forward : Nat → Batch → List (List ℚ)) (batches : List Batch) :
    List Event × Except String TrainResult :=
  let cfg := normConfig cfg0
  if validModelType cfg.model_type then
    let device := selectDevice cfg cudaAvailable
    match buildModel cfg device with
    | none => ([], Except.error "NameError: model is not defined")
    | some model =>
      let initTrace : List Event :=
        [Event.modelInit model,
         Event.datasetInit (cfg.input_length + 1),
         Event.loaderInit cfg.batch_size 0,
         Event.criterionInit,
         Event.optimizerInit cfg.learning_rate]
      let out := trainLoop cfg forward batches 0
        (List.replicate (cfg.train_steps + 1) 0)
      let saveTrace : List Event :=
        [Event.torchSave (cfg.model_type ++ "_model.pt"),
         Event.numpySave ("train_acc_" ++ cfg.model_type ++
           toString cfg.input_length)]
      let stats := if cfg.experiment then some (mkStats out.accs) else none
      (initTrace ++ out.events ++ saveTrace,
       Except.ok ⟨cfg, model, out.accs, out.processed, stats⟩)
  else ([], Except.error "AssertionError")

/-- Number of elements of the Python `range(start, stop, step)` for a
positive `step`. -/
def pyRangeLen (start stop step : Nat) : Nat :=
  if start < stop then (stop - start + step - 1) / step else 0

/-- Python `range(start, stop, step)` for a positive `step`:
`[start, start+step, ...)` strictly below `stop`. -/
def pyRange (start stop step : Nat) : List Nat :=
  List.range' start (pyRangeLen start stop step) step

/-- One entry of the `stats` list accumulated by `experiment`
(lines 180-186): the statistics dictionary returned by `train`, extended
with every entry of the (mutated) configuration. -/
structure RunRecord where
  stats : Stats
  configEntries : Config
deriving Repr, DecidableEq

/-- The body of `experiment`'s `for sl in range(start, end+1, step)` loop
(lines 181-189): set `config.input_length = sl`, run `train`, append the
returned statistics dictionary extended with the config entries, and save
the accumulated statistics array after every run.  An exception raised by
`train` (the line-56 assertion) propagates; so does the `TypeError` that
`stats[-1][key] = value` would raise if `train` returned `None`.
`forward` and `batches` are indexed by the sweep length, because each run
constructs a fresh model and dataset. -/
def experimentLoop (cudaAvailable : Bool)
    (forward : Nat → Nat → Batch → List (List ℚ))
    (batches : Nat → List Batch) :
    List Nat → Config → List RunRecord →
    List Event × Except String (Config × List RunRecord)
  | [], cfg, stats => ([], Except.ok (cfg, stats))
  | sl :: rest, cfg, stats =>
    let cfg1 := { cfg with input_length := sl }
    match train cfg1 cudaAvailable (forward sl) (batches sl) with
    | (evs, Except.error e) => (evs, Except.error e)
    | (evs, Except.ok r) =>
      match r.stats with
      | none =>
        (evs, Except.error "TypeError: NoneType does not support item assignment")
      | some st =>
        let stats1 := stats ++ [⟨st, r.finalConfig⟩]
        let saveEv := Event.numpySave
          ("experiment_stats_500" ++ r.finalConfig.model_type ++ toString (500 : Nat))
        let out := experimentLoop cudaAvailable forward batches rest r.finalConfig stats1
        (evs ++ [saveEv] ++ out.1, out.2)

/-- `experiment(config)` (lines 174-189 of `train.py`): sweep
`sl` over `range(50, 500+1, 50)`. -/
def experiment (cfg : Config) (cudaAvailable : Bool)
    (forward : Nat → Nat → Batch → List (List ℚ))
    (batches : Nat → List Batch) :
    List Event × Except String (Config × List RunRecord) :=
  experimentLoop cudaAvailable forward batches (pyRange 50 (500 + 1) 50) cfg []

/-- Python's `bool()` applied to a string, which is what
`argparse` does to the command-line token when an option is declared with
`type=bool` (line 219): every non-empty string is truthy. -/
def pyBoolOfString (s : String) : Bool :=
  !(s == "")

/-- The value of `config.experiment` after parsing: the declared default
`True` when the option is absent, otherwise `bool()` of the given string. -/
def parseExperimentArg : Option String → Bool
  | none => true
  | some s => pyBoolOfString s

/-- Which branch of the `if config.experiment` dispatch at lines 229-232
ran, with its outcome. -/
inductive MainOutcome where
  | sweep (res : Except String (Config × List RunRecord))
  | singleRun (res : Except String TrainResult)

/-- The single-run (non-sweep) branch recogniser. -/
def MainOutcome.isSingleRun : MainOutcome → Bool
  | MainOutcome.sweep _ => false
  | MainOutcome.singleRun _ => true

/-- The entry-point dispatch, lines 229-232 of `train.py`: run the
sequence-length sweep when `config.experiment` is truthy, otherwise one
training run with the configured `input_length`. -/
def mainDispatch (cfg : Config) (cudaAvailable : Bool)
    (forward : Nat → Nat → Batch → List (List ℚ))
    (batches : Nat → List Batch) : List Event × MainOutcome :=
  if cfg.experiment then
    let out := experiment cfg cudaAvailable forward batches
    (out.1, MainOutcome.sweep out.2)
  else
    let out := train cfg cudaAvailable (forward cfg.input_length)
      (batches cfg.input_length)
    (out.1, MainOutcome.singleRun out.2)

/-! ## Helper lemmas -/

theorem getD_set_ne (xs : List ℚ) (i j : Nat) (v d : ℚ) (h : i ≠ j) :
    (xs.set i v).getD j d = xs.getD j d := by
  simp [List.getD_eq_getElem?_getD, List.getElem?_set_ne h]

theorem getLastD_eq_getD (xs : List ℚ) (d : ℚ) :
    xs.getLastD d = xs.getD (xs.length - 1) d := by
  simp [List.getLastD_eq_getLast?, List.getLast?_eq_getElem?,
    List.getD_eq_getElem?_getD]

theorem argmax_lt_length (xs : List ℚ) (h : xs ≠ []) : argmax xs < xs.length := by
  apply List.findIdx_lt_length_of_exists
  obtain ⟨m, hm⟩ := Option.ne_none_iff_exists'.mp (List.maximum_ne_bot_of_ne_nil h)
  refine ⟨m, List.maximum_mem hm, ?_⟩
  simp only [List.all_eq_true, decide_eq_true_eq]
  exact fun y hy => List.le_maximum_of_mem hy hm

theorem argmax_is_ub (xs : List ℚ) (h : argmax xs < xs.length) :
    ∀ y ∈ xs, y ≤ xs.get ⟨argmax xs, h⟩ := by
  have hp := @List.findIdx_getElem _ (fun x => xs.all (fun y => decide (y ≤ x))) xs h
  simp only [List.all_eq_true, decide_eq_true_eq] at hp
  simpa [List.get_eq_getElem] using hp

theorem argmax_first (xs : List ℚ) (i : Nat) (hm : argmax xs < xs.length)
    (hi : i < argmax xs) :
    xs.get ⟨i, lt_trans hi hm⟩ < xs.get ⟨argmax xs, hm⟩ := by
  have hnot := @List.not_of_lt_findIdx _ (fun x => xs.all (fun y => decide (y ≤ x))) xs i hi
  simp only [List.all_eq_false, decide_eq_true_eq, not_le] at hnot
  obtain ⟨y, hy, hlt⟩ := hnot
  calc xs.get ⟨i, lt_trans hi hm⟩ < y := hlt
    _ ≤ xs.get ⟨argmax xs, hm⟩ := argmax_is_ub xs hm y hy

theorem loopOut_mk_accs (a : List ℚ) (e : List Event) (p : Nat) :
    (LoopOut.mk a e p).accs = a := rfl

theorem loopOut_mk_events (a : List ℚ) (e : List Event) (p : Nat) :
    (LoopOut.mk a e p).events = e := rfl

theorem loopOut_mk_processed (a : List ℚ) (e : List Event) (p : Nat) :
    (LoopOut.mk a e p).processed = p := rfl

/-- The accuracy of the `k`-th processed batch: the oracle's predictions at
that step, scored against the batch targets. -/
def batchAcc (cfg : Config) (forward : Nat → Batch → List (List ℚ))
    (bs : List Batch) (step k : Nat) : ℚ :=
  accuracy (forward (step + k) (bs.getD k default)) (bs.getD k default).targets cfg

theorem trainLoop_events_eq (cfg : Config) (fw : Nat → Batch → List (List ℚ)) :
    ∀ (bs : List Batch) (s : Nat) (arr : List ℚ),
    (trainLoop cfg fw bs s arr).events =
      (List.range (trainLoop cfg fw bs s arr).processed).flatMap
        (fun k => stepTrace cfg (s + k) (batchAcc cfg fw bs s k)) := by
  intro bs
  induction bs with
  | nil => intro s arr; simp [trainLoop]
  | cons b bs ih =>
    intro s arr
    simp only [trainLoop]
    split
    · simp [batchAcc, List.range_succ, stepTrace]
    · simp only [loopOut_mk_events, loopOut_mk_processed]
      rw [ih (s + 1) (arr.set s (accuracy (fw s b) b.targets cfg))]
      rw [List.range_succ_eq_map, List.flatMap_cons, List.flatMap_map]
      congr 1
      refine congrArg _ (funext fun k => ?_)
      have harith : s + (k + 1) = s + 1 + k := by omega
      rw [harith]
      simp only [batchAcc, List.getD_cons_succ]
      rw [harith]

theorem trainLoop_processed_le (cfg : Config) (fw : Nat → Batch → List (List ℚ)) :
    ∀ (bs : List Batch) (s : Nat) (arr : List ℚ), s ≤ cfg.train_steps →
    (trainLoop cfg fw bs s arr).processed ≤ cfg.train_steps + 1 - s := by
  intro bs
  induction bs with
  | nil => intro s arr _; simp [trainLoop]
  | cons b bs ih =>
    intro s arr hs
    simp only [trainLoop]
    split
    · simp only [loopOut_mk_processed]; omega
    next hc =>
      simp only [loopOut_mk_processed]
      have hne : s ≠ cfg.train_steps := fun h => hc (Or.inl h)
      have := ih (s + 1) (arr.set s (accuracy (fw s b) b.targets cfg)) (by omega)
      omega

theorem trainLoop_accs_length (cfg : Config) (fw : Nat → Batch → List (List ℚ)) :
    ∀ (bs : List Batch) (s : Nat) (arr : List ℚ),
    (trainLoop cfg fw bs s arr).accs.length = arr.length := by
  intro bs
  induction bs with
  | nil => intro s arr; simp [trainLoop]
  | cons b bs ih =>
    intro s arr
    simp only [trainLoop]
    split
    · simp
    · simp only [loopOut_mk_accs]
      rw [ih (s + 1) (arr.set s (accuracy (fw s b) b.targets cfg))]
      simp

theorem trainLoop_accs_untouched (cfg : Config) (fw : Nat → Batch → List (List ℚ)) :
    ∀ (bs : List Batch) (s : Nat) (arr : List ℚ) (j : Nat) (d : ℚ),
    s + (trainLoop cfg fw bs s arr).processed ≤ j →
    (trainLoop cfg fw bs s arr).accs.getD j d = arr.getD j d := by
  intro bs
  induction bs with
  | nil => intro s arr j d _; simp [trainLoop]
  | cons b bs ih =>
    intro s arr j d hj
    simp only [trainLoop] at hj ⊢
    by_cases hc : s = cfg.train_steps ∨
        movingAverage (arr.set s (accuracy (fw s b) b.targets cfg)) s = 1
    · rw [if_pos hc] at hj ⊢
      simp only [loopOut_mk_accs, loopOut_mk_processed] at hj ⊢
      exact getD_set_ne arr s j _ d (by omega)
    · rw [if_neg hc] at hj ⊢
      simp only [loopOut_mk_accs, loopOut_mk_processed] at hj ⊢
      rw [ih (s + 1) (arr.set s (accuracy (fw s b) b.targets cfg)) j d (by omega)]
      exact getD_set_ne arr s j _ d (by omega)

/-! ## Trace classification and `train` unfolding -/

/-- The models constructed in a trace. -/
def modelInits (evs : List Event) : List Model :=
  evs.filterMap (fun e => match e with
    | Event.modelInit m => some m
    | _ => none)

/-- The dataset and data-loader constructions in a trace. -/
def pipelineInits (evs : List Event) : List Event :=
  evs.filter (fun e => match e with
    | Event.datasetInit _ => true
    | Event.loaderInit _ _ => true
    | _ => false)

/-- Artifact-saving calls (`torch.save` and `numpy.save`) in a trace. -/
def saveEvents (evs : List Event) : List Event :=
  evs.filter (fun e => match e with
    | Event.torchSave _ => true
    | Event.numpySave _ => true
    | _ => false)

/-- The file names passed to `numpy.save` in a trace. -/
def numpySaves (evs : List Event) : List String :=
  evs.filterMap (fun e => match e with
    | Event.numpySave f => some f
    | _ => none)

theorem mem_loop_events (cfg : Config) (fw : Nat → Batch → List (List ℚ))
    (bs : List Batch) (s : Nat) (arr : List ℚ) (e : Event)
    (he : e ∈ (trainLoop cfg fw bs s arr).events) :
    ∃ k a, e ∈ stepTrace cfg k a := by
  rw [trainLoop_events_eq] at he
  obtain ⟨k, -, hk⟩ := List.mem_flatMap.mp he
  exact ⟨_, _, hk⟩

/-- The model constructed by `train` when the assertion passes. -/
def theModel (cfg0 : Config) (cudaAvailable : Bool) : Model :=
  (buildModel (normConfig cfg0)
    (selectDevice (normConfig cfg0) cudaAvailable)).getD default

theorem buildModel_of_valid (cfg : Config) (device : String)
    (hv : validModelType cfg.model_type) :
    buildModel cfg device = some ((buildModel cfg device).getD default) := by
  rcases hv with h | h | h <;> simp [buildModel, h]

/-- Unfolding of `train` on a configuration that passes the assertion. -/
theorem train_eq_of_valid (cfg0 : Config) (cuda : Bool)
    (fw : Nat → Batch → List (List ℚ)) (bs : List Batch)
    (hv : validModelType (pyLower cfg0.model_type)) :
    train cfg0 cuda fw bs =
      ([Event.modelInit (theModel cfg0 cuda),
        Event.datasetInit (cfg0.input_length + 1),
        Event.loaderInit cfg0.batch_size 0,
        Event.criterionInit,
        Event.optimizerInit cfg0.learning_rate]
        ++ (trainLoop (normConfig cfg0) fw bs 0
              (List.replicate (cfg0.train_steps + 1) 0)).events
        ++ [Event.torchSave (pyLower cfg0.model_type ++ "_model.pt"),
            Event.numpySave ("train_acc_" ++ pyLower cfg0.model_type ++
              toString cfg0.input_length)],
       Except.ok
         { finalConfig := normConfig cfg0
           model := theModel cfg0 cuda
           accs := (trainLoop (normConfig cfg0) fw bs 0
             (List.replicate (cfg0.train_steps + 1) 0)).accs
           processed := (trainLoop (normConfig cfg0) fw bs 0
             (List.replicate (cfg0.train_steps + 1) 0)).processed
           stats := if cfg0.experiment then
               some (mkStats ((trainLoop (normConfig cfg0) fw bs 0
                 (List.replicate (cfg0.train_steps + 1) 0)).accs))
             else none }) := by
  have hv' : validModelType (normConfig cfg0).model_type := hv
  obtain ⟨m, hm⟩ : ∃ m, buildModel (normConfig cfg0)
      (selectDevice (normConfig cfg0) cuda) = some m :=
    ⟨_, buildModel_of_valid _ _ hv'⟩
  have htm : theModel cfg0 cuda = m := by rw [theModel, hm]; rfl
  rw [train]
  rw [if_pos hv']
  simp only [hm, htm]
  rfl

/-- Unfolding of `train` on a configuration that fails the assertion. -/
theorem train_eq_of_invalid (cfg0 : Config) (cuda : Bool)
    (fw : Nat → Batch → List (List ℚ)) (bs : List Batch)
    (hv : ¬ validModelType (pyLower cfg0.model_type)) :
    train cfg0 cuda fw bs = ([], Except.error "AssertionError") := by
  have hv' : ¬ validModelType (normConfig cfg0).model_type := hv
  rw [train, if_neg hv']

theorem modelInits_append (xs ys : List Event) :
    modelInits (xs ++ ys) = modelInits xs ++ modelInits ys :=
  List.filterMap_append xs ys _

theorem pipelineInits_append (xs ys : List Event) :
    pipelineInits (xs ++ ys) = pipelineInits xs ++ pipelineInits ys :=
  List.filter_append xs ys

theorem saveEvents_append (xs ys : List Event) :
    saveEvents (xs ++ ys) = saveEvents xs ++ saveEvents ys :=
  List.filter_append xs ys

theorem numpySaves_append (xs ys : List Event) :
    numpySaves (xs ++ ys) = numpySaves xs ++ numpySaves ys :=
  List.filterMap_append xs ys _

theorem modelInits_loop (cfg : Config) (fw : Nat → Batch → List (List ℚ))
    (bs : List Batch) (s : Nat) (arr : List ℚ) :
    modelInits (trainLoop cfg fw bs s arr).events = [] := by
  rw [modelInits, List.filterMap_eq_nil_iff]
  intro e he
  obtain ⟨k, a, hk⟩ := mem_loop_events cfg fw bs s arr e he
  simp only [stepTrace, List.mem_cons, List.not_mem_nil, or_false] at hk
  rcases hk with h | h | h | h | h | h | h <;> subst h <;> rfl

theorem pipelineInits_loop (cfg : Config) (fw : Nat → Batch → List (List ℚ))
    (bs : List Batch) (s : Nat) (arr : List ℚ) :
    pipelineInits (trainLoop cfg fw bs s arr).events = [] := by
  rw [pipelineInits, List.filter_eq_nil_iff]
  intro e he
  obtain ⟨k, a, hk⟩ := mem_loop_events cfg fw bs s arr e he
  simp only [stepTrace, List.mem_cons, List.not_mem_nil, or_false] at hk
  rcases hk with h | h | h | h | h | h | h <;> subst h <;> simp

theorem saveEvents_loop (cfg : Config) (fw : Nat → Batch → List (List ℚ))
    (bs : List Batch) (s : Nat) (arr : List ℚ) :
    saveEvents (trainLoop cfg fw bs s arr).events = [] := by
  rw [saveEvents, List.filter_eq_nil_iff]
  intro e he
  obtain ⟨k, a, hk⟩ := mem_loop_events cfg fw bs s arr e he
  simp only [stepTrace, List.mem_cons, List.not_mem_nil, or_false] at hk
  rcases hk with h | h | h | h | h | h | h <;> subst h <;> simp

theorem numpySaves_loop (cfg : Config) (fw : Nat → Batch → List (List ℚ))
    (bs : List Batch) (s : Nat) (arr : List ℚ) :
    numpySaves (trainLoop cfg fw bs s arr).events = [] := by
  rw [numpySaves, List.filterMap_eq_nil_iff]
  intro e he
  obtain ⟨k, a, hk⟩ := mem_loop_events cfg fw bs s arr e he
  simp only [stepTrace, List.mem_cons, List.not_mem_nil, or_false] at hk
  rcases hk with h | h | h | h | h | h | h <;> subst h <;> rfl

/-! ## Claims -/

/-- C1: every batch drawn from the data loader is processed by exactly the
following operations in this order: forward pass, cross-entropy loss,
gradient zeroing followed by the backward pass, clipping of the gradient
norm to `config.max_norm`, one optimizer step, and recording of the batch
accuracy (at the current step index) into the accuracy array. -/
theorem claim_C1_batch_operations (cfg : Config)
    (fw : Nat → Batch → List (List ℚ)) (bs : List Batch) (arr : List ℚ) :
    (trainLoop cfg fw bs 0 arr).events =
      (List.range (trainLoop cfg fw bs 0 arr).processed).flatMap
        (fun k =>
          [Event.forwardPass, Event.crossEntropyLoss, Event.zeroGrad,
           Event.backwardPass, Event.clipGradNorm cfg.max_norm,
           Event.optimizerStep,
           Event.recordAcc k
             (accuracy (fw k (bs.getD k default)) (bs.getD k default).targets cfg)]) := by
  have h := trainLoop_events_eq cfg fw bs 0 arr
  simpa [stepTrace, batchAcc] using h

/-- C2: for `model_type` lowercasing to `'rnn'`, `'lstm'` or `'rrn'`,
`train` constructs exactly one model — `VanillaRNN`, `LSTM` or `RRN`
respectively — and passes the same constructor arguments in all three
cases: `seq_length = config.input_length`, `input_dim`, `num_hidden`,
`num_classes`, `batch_size` and the selected device. -/
theorem claim_C2_model_selection (cfg : Config) (cuda : Bool)
    (fw : Nat → Batch → List (List ℚ)) (bs : List Batch) :
    let args : ModelArgs :=
      { seq_length := cfg.input_length
        input_dim := cfg.input_dim
        num_hidden := cfg.num_hidden
        num_classes := cfg.num_classes
        batch_size := cfg.batch_size
        device := selectDevice (normConfig cfg) cuda }
    (pyLower cfg.model_type = "rnn" →
      modelInits (train cfg cuda fw bs).1 = [Model.vanillaRNN args]) ∧
    (pyLower cfg.model_type = "lstm" →
      modelInits (train cfg cuda fw bs).1 = [Model.lstm args]) ∧
    (pyLower cfg.model_type = "rrn" →
      modelInits (train cfg cuda fw bs).1 = [Model.rrn args]) := by
  refine ⟨fun h => ?_, fun h => ?_, fun h => ?_⟩ <;>
  · rw [train_eq_of_valid cfg cuda fw bs (by rw [validModelType, h]; tauto)]
    rw [modelInits_append, modelInits_append, modelInits_loop]
    have hmt : (normConfig cfg).model_type = pyLower cfg.model_type := rfl
    simp [modelInits, theModel, buildModel, hmt, h, normConfig]

/-- C6: every training run draws its batches from a palindrome dataset
constructed with sequence length `config.input_length + 1`, wrapped in a
data loader with batch size `config.batch_size` and zero workers. -/
theorem claim_C6_dataset_loader (cfg : Config) (cuda : Bool)
    (fw : Nat → Batch → List (List ℚ)) (bs : List Batch)
    (hv : validModelType (pyLower cfg.model_type)) :
    pipelineInits (train cfg cuda fw bs).1 =
      [Event.datasetInit (cfg.input_length + 1),
       Event.loaderInit cfg.batch_size 0] := by
  rw [train_eq_of_valid cfg cuda fw bs hv]
  rw [pipelineInits_append, pipelineInits_append, pipelineInits_loop]
  simp [pipelineInits]

/-- C8: a configuration whose `model_type` does not lowercase to `'rnn'`,
`'lstm'` or `'rrn'` fails the initial assertion before any model, dataset
or optimizer is constructed and before any training step runs (the trace is
empty); when it does lowercase to one of the three, the assertion branch is
unreachable and `train` completes. -/
theorem claim_C8_assertion (cfg : Config) (cuda : Bool)
    (fw : Nat → Batch → List (List ℚ)) (bs : List Batch) :
    (¬ validModelType (pyLower cfg.model_type) →
      train cfg cuda fw bs = ([], Except.error "AssertionError")) ∧
    (validModelType (pyLower cfg.model_type) →
      ∃ r : TrainResult, (train cfg cuda fw bs).2 = Except.ok r) :=
  ⟨fun hv => train_eq_of_invalid cfg cuda fw bs hv,
   fun hv => ⟨_, by rw [train_eq_of_valid cfg cuda fw bs hv]⟩⟩

theorem torchSum_eq_count (mask : List Bool) : torchSum mask = mask.count true := by
  suffices h : ∀ a : Nat, mask.foldl (fun a b => a + (if b then 1 else 0)) a =
      a + mask.count true by
    simpa [torchSum] using h 0
  induction mask with
  | nil => intro a; simp
  | cons b bs ih =>
    intro a
    cases b
    · simp [List.count_cons, ih]
    · simp [List.count_cons, ih]
      omega

/-- C5: the recorded batch accuracy is the number of examples whose
predicted class (argmax over the class dimension) equals the target label,
divided by `config.batch_size`; when the batch holds exactly
`config.batch_size` examples it lies in `[0, 1]`. -/
theorem claim_C5_accuracy (predictions : List (List ℚ)) (label : List Nat)
    (cfg : Config) :
    accuracy predictions label cfg =
      (((predictions.zip label).countP (fun p => argmax p.1 == p.2) : ℚ) /
        (cfg.batch_size : ℚ)) ∧
    (predictions.length = cfg.batch_size → label.length = cfg.batch_size →
      0 ≤ accuracy predictions label cfg ∧ accuracy predictions label cfg ≤ 1) := by
  have hcount : torchSum (eqMask (predictions.map argmax) label) =
      (predictions.zip label).countP (fun p => argmax p.1 == p.2) := by
    rw [torchSum_eq_count, eqMask, List.zip_map_left]
    rw [List.count_eq_countP, List.countP_map, List.countP_map]
    apply List.countP_congr
    intro p _
    simp [Function.comp, Prod.map]
  constructor
  · rw [accuracy, hcount]
  · intro hp hl
    constructor
    · apply div_nonneg
      · exact_mod_cast Nat.zero_le _
      · exact_mod_cast Nat.zero_le _
    · rcases Nat.eq_zero_or_pos cfg.batch_size with hz | hpos
      · simp [accuracy, hz]
      · rw [accuracy]
        rw [div_le_one (by exact_mod_cast hpos)]
        have hle : torchSum (eqMask (predictions.map argmax) label) ≤
            cfg.batch_size := by
          rw [torchSum_eq_count]
          calc (eqMask (predictions.map argmax) label).count true
              ≤ (eqMask (predictions.map argmax) label).length :=
                List.count_le_length _ _
            _ ≤ cfg.batch_size := by
                simp [eqMask, List.length_zip, hp, hl]
        exact_mod_cast hle

/-- C9: with the option declared as `type=bool, default=True`, every
non-empty string — including `'False'` and `'0'` — parses to `True`, and
the single-run (non-sweep) entry-point branch is reachable only by passing
an empty string for `--experiment`. -/
theorem claim_C9_bool_option (s : String) (o : Option String) (cfg : Config)
    (cuda : Bool) (fw : Nat → Nat → Batch → List (List ℚ))
    (bsf : Nat → List Batch) :
    (s ≠ "" → parseExperimentArg (some s) = true) ∧
    parseExperimentArg (some "False") = true ∧
    parseExperimentArg (some "0") = true ∧
    parseExperimentArg none = true ∧
    (parseExperimentArg o = false ↔ o = some "") ∧
    (((mainDispatch { cfg with experiment := parseExperimentArg o }
        cuda fw bsf).2.isSingleRun = true) ↔ o = some "") := by
  have hparse : parseExperimentArg o = false ↔ o = some "" := by
    cases o with
    | none => simp [parseExperimentArg]
    | some t => simp [parseExperimentArg, pyBoolOfString]
  refine ⟨fun h => by simp [parseExperimentArg, pyBoolOfString, h], by decide,
    by decide, by decide, hparse, ?_⟩
  rw [← hparse]
  cases hb : parseExperimentArg o <;>
    simp [mainDispatch, hb, MainOutcome.isSingleRun]

/-- Witness for C2 at a concrete configuration of each model type. -/
theorem claim_C2_witness :
    modelInits (train ⟨"RNN", 10, 1, 10, 128, 128, 1/1000, 10000, 10, "cpu",
        true, 100⟩ false (fun _ _ => []) []).1 =
      [Model.vanillaRNN ⟨10, 1, 128, 10, 128, "cpu"⟩] ∧
    modelInits (train ⟨"LSTM", 10, 1, 10, 128, 128, 1/1000, 10000, 10, "cpu",
        true, 100⟩ false (fun _ _ => []) []).1 =
      [Model.lstm ⟨10, 1, 128, 10, 128, "cpu"⟩] ∧
    modelInits (train ⟨"rrn", 10, 1, 10, 128, 128, 1/1000, 10000, 10, "cpu",
        true, 100⟩ false (fun _ _ => []) []).1 =
      [Model.rrn ⟨10, 1, 128, 10, 128, "cpu"⟩] :=
  ⟨((claim_C2_model_selection _ false (fun _ _ => []) []).1 (by decide)).trans
      (by decide),
   ((claim_C2_model_selection _ false (fun _ _ => []) []).2.1 (by decide)).trans
      (by decide),
   ((claim_C2_model_selection _ false (fun _ _ => []) []).2.2 (by decide)).trans
      (by decide)⟩

/-- Witness for C6 at a concrete configuration. -/
theorem claim_C6_witness :
    pipelineInits (train ⟨"RRN", 10, 1, 10, 128, 128, 1/1000, 10000, 10,
        "cpu", true, 100⟩ false (fun _ _ => []) []).1 =
      [Event.datasetInit (10 + 1), Event.loaderInit 128 0] :=
  claim_C6_dataset_loader _ false (fun _ _ => []) [] (by decide)

/-- Witness for C8: a rejected and an accepted concrete configuration. -/
theorem claim_C8_witness :
    train ⟨"GRU", 10, 1, 10, 128, 128, 1/1000, 10000, 10, "cpu", true, 100⟩
        false (fun _ _ => []) [] = ([], Except.error "AssertionError") ∧
    ∃ r : TrainResult,
      (train ⟨"LSTM", 10, 1, 10, 128, 128, 1/1000, 10000, 10, "cpu", true,
        100⟩ false (fun _ _ => []) []).2 = Except.ok r :=
  ⟨(claim_C8_assertion _ false (fun _ _ => []) []).1 (by decide),
   (claim_C8_assertion _ false (fun _ _ => []) []).2 (by decide)⟩

/-- Witness for C5 at a concrete batch. -/
theorem claim_C5_witness :
    accuracy [[1, 2], [5, 0], [0, 1]] [1, 0, 0]
        ⟨"rnn", 10, 1, 10, 128, 3, 1/1000, 10, 10, "cpu", true, 100⟩ =
      ((([[1, 2], [5, 0], [0, 1]].zip ([1, 0, 0] : List Nat)).countP
          (fun p => argmax p.1 == p.2) : ℚ) / ((3 : Nat) : ℚ)) ∧
    (0 ≤ accuracy [[1, 2], [5, 0], [0, 1]] [1, 0, 0]
        ⟨"rnn", 10, 1, 10, 128, 3, 1/1000, 10, 10, "cpu", true, 100⟩ ∧
      accuracy [[1, 2], [5, 0], [0, 1]] [1, 0, 0]
        ⟨"rnn", 10, 1, 10, 128, 3, 1/1000, 10, 10, "cpu", true, 100⟩ ≤ 1) :=
  ⟨(claim_C5_accuracy [[1, 2], [5, 0], [0, 1]] [1, 0, 0] _).1,
   (claim_C5_accuracy [[1, 2], [5, 0], [0, 1]] [1, 0, 0] _).2 rfl rfl⟩

/-- Witness for C9 at concrete argument strings. -/
theorem claim_C9_witness :
    parseExperimentArg (some "False") = true ∧
    ((mainDispatch (⟨"RRN", 10, 1, 10, 128, 128, 1/1000, 10000, 10, "cpu",
        parseExperimentArg (some ""), 100⟩ : Config)
      false (fun _ _ _ => []) (fun _ => [])).2.isSingleRun = true) :=
  ⟨(claim_C9_bool_option "x" (some "False") ⟨"RRN", 10, 1, 10, 128, 128,
        1/1000, 10000, 10, "cpu", true, 100⟩ false (fun _ _ _ => [])
      (fun _ => [])).2.1,
   ((claim_C9_bool_option "x" (some "") ⟨"RRN", 10, 1, 10, 128, 128, 1/1000,
        10000, 10, "cpu", true, 100⟩ false (fun _ _ _ => [])
      (fun _ => [])).2.2.2.2.2).mpr rfl⟩

theorem movingSlice_eq_nil (arr : List ℚ) (step : Nat) (hlen : 5 ≤ arr.length)
    (hstep : step ≤ 3) : movingSlice arr step = [] := by
  rw [movingSlice, pySlice]
  apply List.drop_eq_nil_of_le
  rw [List.length_take, pyBound, pyBound]
  rw [if_neg (by omega), if_pos (by omega)]
  omega

theorem movingAverage_eq_zero (arr : List ℚ) (step : Nat) (hlen : 5 ≤ arr.length)
    (hstep : step ≤ 3) : movingAverage arr step = 0 := by
  rw [movingAverage, movingSlice_eq_nil arr step hlen hstep]
  simp

theorem trainLoop_no_early_stop (cfg : Config) (fw : Nat → Batch → List (List ℚ)) :
    ∀ (bs : List Batch) (s : Nat) (arr : List ℚ),
    arr.length = cfg.train_steps + 1 → 4 ≤ cfg.train_steps → s ≤ 3 →
    4 - s ≤ bs.length → 4 - s ≤ (trainLoop cfg fw bs s arr).processed := by
  intro bs
  induction bs with
  | nil => intro s arr _ _ hs hbs; simp at hbs; omega
  | cons b bs ih =>
    intro s arr hlen hts hs hbs
    simp only [trainLoop]
    have hcond : ¬ (s = cfg.train_steps ∨
        movingAverage (arr.set s (accuracy (fw s b) b.targets cfg)) s = 1) := by
      push_neg
      refine ⟨by omega, ?_⟩
      rw [movingAverage_eq_zero _ s (by rw [List.length_set]; omega) hs]
      exact zero_ne_one
    rw [if_neg hcond]
    simp only [loopOut_mk_processed]
    by_cases h3 : s = 3
    · omega
    · have hrec := ih (s + 1) (arr.set s (accuracy (fw s b) b.targets cfg))
        (by rw [List.length_set]; exact hlen) hts (by omega)
        (by simp only [List.length_cons] at hbs; omega)
      omega

/-- C4 (amended): starting from step 0 on the zero-initialised accuracy
array of length `train_steps + 1`, the loop processes at most
`train_steps + 1` batches; every recorded-accuracy write index is within
the bounds of that array; and PROVIDED `train_steps >= 4` (so that the
array has at least five entries), for steps 0 through 3 the moving-average
window `train_acc[step-4:step+1]` has a negative start index and is the
empty slice, its average is 0, and consequently the loop cannot stop
during any of the first four steps.  (As stated, with the emptiness
asserted for every `train_steps >= 0`, the claim is false: for
`train_steps <= 3` Python's clamping of the wrapped negative start makes
the slice non-empty — see the counterexample.) -/
theorem claim_C4_loop_bounds (cfg : Config) (fw : Nat → Batch → List (List ℚ))
    (bs : List Batch) :
    (trainLoop cfg fw bs 0 (List.replicate (cfg.train_steps + 1) 0)).processed ≤
        cfg.train_steps + 1 ∧
    (∀ k a, Event.recordAcc k a ∈
        (trainLoop cfg fw bs 0 (List.replicate (cfg.train_steps + 1) 0)).events →
      k < (List.replicate (cfg.train_steps + 1) (0 : ℚ)).length) ∧
    (4 ≤ cfg.train_steps → ∀ arr : List ℚ, arr.length = cfg.train_steps + 1 →
      ∀ step : Nat, step ≤ 3 →
        (step : ℤ) - 4 < 0 ∧ movingSlice arr step = [] ∧
          movingAverage arr step = 0) ∧
    (4 ≤ cfg.train_steps → 4 ≤ bs.length →
      4 ≤ (trainLoop cfg fw bs 0 (List.replicate (cfg.train_steps + 1) 0)).processed) := by
  have hple := trainLoop_processed_le cfg fw bs 0
    (List.replicate (cfg.train_steps + 1) 0) (Nat.zero_le _)
  refine ⟨by omega, ?_, ?_, ?_⟩
  · intro k a hk
    rw [trainLoop_events_eq] at hk
    obtain ⟨j, hj, hmem⟩ := List.mem_flatMap.mp hk
    rw [List.mem_range] at hj
    simp only [stepTrace, List.mem_cons, List.not_mem_nil, or_false] at hmem
    rcases hmem with h | h | h | h | h | h | h
    · exact absurd h (by simp)
    · exact absurd h (by simp)
    · exact absurd h (by simp)
    · exact absurd h (by simp)
    · exact absurd h (by simp)
    · exact absurd h (by simp)
    · injection h with hk ha
      rw [List.length_replicate]
      omega
  · intro h4 arr hlen step hstep
    exact ⟨by omega, movingSlice_eq_nil arr step (by omega) hstep,
      movingAverage_eq_zero arr step (by omega) hstep⟩
  · intro h4 hbs
    have := trainLoop_no_early_stop cfg fw bs 0
      (List.replicate (cfg.train_steps + 1) 0)
      (by rw [List.length_replicate]) h4 (by omega) (by omega)
    omega

/-- C4 counterexample: with `train_steps = 3` (a configuration with
`train_steps >= 0`), the accuracy array has length `train_steps + 1 = 4`,
and at step 0 the moving-average window `train_acc[step-4:step+1]` has a
negative start index yet is NOT empty — Python clamps the wrapped negative
start to 0, so the slice holds one element.  This refutes the claim's
assertion that the slice is empty for steps 0 through 3 in every
configuration with `train_steps >= 0`. -/
theorem claim_C4_counterexample :
    (0 : ℤ) - 4 < 0 ∧
    (List.replicate (3 + 1) (0 : ℚ)).length = 3 + 1 ∧
    movingSlice (List.replicate (3 + 1) (0 : ℚ)) 0 ≠ [] := by decide

/-- Witness for C4 (amended) at a concrete configuration. -/
theorem claim_C4_witness :
    ((trainLoop ⟨"rrn", 10, 1, 10, 128, 1, 1/1000, 5, 10, "cpu", true, 100⟩
        (fun _ _ => [[1]]) (List.replicate 6 ⟨[[1]], [0]⟩) 0
        (List.replicate (5 + 1) 0)).processed ≤ 5 + 1) ∧
    movingSlice (List.replicate (5 + 1) (0 : ℚ)) 0 = [] ∧
    4 ≤ (trainLoop ⟨"rrn", 10, 1, 10, 128, 1, 1/1000, 5, 10, "cpu", true, 100⟩
        (fun _ _ => [[1]]) (List.replicate 6 ⟨[[1]], [0]⟩) 0
        (List.replicate (5 + 1) 0)).processed :=
  ⟨(claim_C4_loop_bounds _ (fun _ _ => [[1]]) (List.replicate 6 ⟨[[1]], [0]⟩)).1,
   ((claim_C4_loop_bounds ⟨"rrn", 10, 1, 10, 128, 1, 1/1000, 5, 10, "cpu",
        true, 100⟩ (fun _ _ => [[1]])
      (List.replicate 6 ⟨[[1]], [0]⟩)).2.2.1 (by decide)
      (List.replicate (5 + 1) 0) (by decide) 0 (by decide)).2.1,
   (claim_C4_loop_bounds _ (fun _ _ => [[1]])
      (List.replicate 6 ⟨[[1]], [0]⟩)).2.2.2 (by decide) (by decide)⟩

theorem mkStats_accs (xs : List ℚ) : (mkStats xs).accs = xs := rfl

theorem mkStats_num_steps (xs : List ℚ) : (mkStats xs).num_steps = xs.length := rfl

theorem mkStats_step_best (xs : List ℚ) :
    (mkStats xs).step_best_acc = argmax xs := rfl

theorem mkStats_best (xs : List ℚ) :
    (mkStats xs).best_acc = xs.getD (argmax xs) 0 := rfl

theorem mkStats_last (xs : List ℚ) : (mkStats xs).last_acc = xs.getLastD 0 := rfl

theorem getD_replicate (n i : Nat) (a d : ℚ) :
    (List.replicate n a).getD i d = if i < n then a else d := by
  rw [List.getD_eq_getElem?_getD, List.getElem?_replicate]
  split <;> simp

/-- C10: when `train` returns statistics (the experiment flag is true), the
dictionary satisfies: `accs` is the full accuracy array of length
`train_steps + 1`, `num steps` equals `train_steps + 1` regardless of early
stopping, `best acc` is the maximum of the array, `step best acc` is the
smallest index attaining it, and `last acc` is the final entry, which is 0
whenever training stopped before step `train_steps`. -/
theorem claim_C10_statistics (cfg : Config) (cuda : Bool)
    (fw : Nat → Batch → List (List ℚ)) (bs : List Batch)
    (hv : validModelType (pyLower cfg.model_type))
    (he : cfg.experiment = true) :
    ∃ r : TrainResult, (train cfg cuda fw bs).2 = Except.ok r ∧
    ∃ st : Stats, r.stats = some st ∧
      st.accs = r.accs ∧
      st.accs.length = cfg.train_steps + 1 ∧
      st.num_steps = cfg.train_steps + 1 ∧
      st.step_best_acc < st.accs.length ∧
      st.best_acc = st.accs.getD st.step_best_acc 0 ∧
      (∀ i, i < st.accs.length → st.accs.getD i 0 ≤ st.best_acc) ∧
      (∀ j, j < st.step_best_acc → st.accs.getD j 0 < st.best_acc) ∧
      st.last_acc = st.accs.getD (st.accs.length - 1) 0 ∧
      (r.processed ≤ cfg.train_steps → st.last_acc = 0) := by
  rw [train_eq_of_valid cfg cuda fw bs hv]
  refine ⟨_, rfl, ?_⟩
  set accs := (trainLoop (normConfig cfg) fw bs 0
    (List.replicate (cfg.train_steps + 1) 0)).accs with haccs
  have hlen : accs.length = cfg.train_steps + 1 := by
    rw [haccs, trainLoop_accs_length]; simp
  have hne : accs ≠ [] := by
    apply List.ne_nil_of_length_pos
    omega
  have harg : argmax accs < accs.length := argmax_lt_length accs hne
  refine ⟨mkStats accs, by simp [he], ?_⟩
  refine ⟨rfl, hlen, hlen, harg, rfl, ?_, ?_, ?_, ?_⟩
  · intro i hi
    simp only [mkStats_accs, mkStats_best] at hi ⊢
    rw [List.getD_eq_getElem _ _ hi, List.getD_eq_getElem _ _ harg]
    exact argmax_is_ub accs harg _ (List.getElem_mem hi)
  · intro j hj
    simp only [mkStats_accs, mkStats_best, mkStats_step_best] at hj ⊢
    rw [List.getD_eq_getElem _ _ (lt_trans hj harg), List.getD_eq_getElem _ _ harg]
    exact argmax_first accs j harg hj
  · simp only [mkStats_accs, mkStats_last]
    exact getLastD_eq_getD accs 0
  · intro hstop
    have hstop' : (trainLoop (normConfig cfg) fw bs 0
        (List.replicate (cfg.train_steps + 1) 0)).processed ≤ cfg.train_steps :=
      hstop
    have huntouched := trainLoop_accs_untouched (normConfig cfg) fw bs 0
      (List.replicate (cfg.train_steps + 1) 0) cfg.train_steps 0 (by omega)
    rw [mkStats_last, getLastD_eq_getD, hlen]
    simp only [Nat.add_sub_cancel]
    rw [haccs, huntouched, getD_replicate]
    simp

/-- Witness for C10 at a concrete configuration. -/
theorem claim_C10_witness :
    ∃ r : TrainResult,
      (train ⟨"LSTM", 10, 1, 10, 128, 128, 1/1000, 10000, 10, "cpu", true,
        100⟩ false (fun _ _ => []) []).2 = Except.ok r ∧
    ∃ st : Stats, r.stats = some st ∧
      st.accs = r.accs ∧
      st.accs.length = 10000 + 1 ∧
      st.num_steps = 10000 + 1 ∧
      st.step_best_acc < st.accs.length ∧
      st.best_acc = st.accs.getD st.step_best_acc 0 ∧
      (∀ i, i < st.accs.length → st.accs.getD i 0 ≤ st.best_acc) ∧
      (∀ j, j < st.step_best_acc → st.accs.getD j 0 < st.best_acc) ∧
      st.last_acc = st.accs.getD (st.accs.length - 1) 0 ∧
      (r.processed ≤ 10000 → st.last_acc = 0) :=
  claim_C10_statistics ⟨"LSTM", 10, 1, 10, 128, 128, 1/1000, 10000, 10,
    "cpu", true, 100⟩ false (fun _ _ => []) [] (by decide) rfl

/-! ## The experiment sweep -/

theorem pyLower_of_valid (s : String) (h : validModelType s) : pyLower s = s := by
  rcases h with h | h | h <;> subst h <;> decide

/-- The configuration a sweep iteration hands to `train`, after `train` has
lowercased `model_type` in place: the original configuration with
`input_length` set to the sweep length. -/
def sweepConfig (cfg : Config) (sl : Nat) : Config :=
  { cfg with model_type := pyLower cfg.model_type, input_length := sl }

/-- The statistics record appended for one sweep iteration, extended with
the configuration entries. -/
def sweepRecord (cfg : Config) (_cuda : Bool)
    (fw : Nat → Nat → Batch → List (List ℚ)) (bsf : Nat → List Batch)
    (sl : Nat) : RunRecord :=
  ⟨mkStats ((trainLoop (sweepConfig cfg sl) (fw sl) (bsf sl) 0
      (List.replicate (cfg.train_steps + 1) 0)).accs),
   sweepConfig cfg sl⟩

/-- The trace of one sweep iteration: the training run followed by the
per-iteration `numpy.save` of the accumulated statistics (line 189). -/
def sweepTrace (cfg : Config) (cuda : Bool)
    (fw : Nat → Nat → Batch → List (List ℚ)) (bsf : Nat → List Batch)
    (sl : Nat) : List Event :=
  (train (sweepConfig cfg sl) cuda (fw sl) (bsf sl)).1 ++
    [Event.numpySave ("experiment_stats_500" ++ pyLower cfg.model_type ++
      toString (500 : Nat))]

theorem sweepConfig_sweepConfig (cfg : Config) (sl sl' : Nat)
    (hv : validModelType (pyLower cfg.model_type)) :
    sweepConfig (sweepConfig cfg sl) sl' = sweepConfig cfg sl' := by
  simp [sweepConfig, pyLower_of_valid _ hv]

theorem train_sweepConfig (cfg : Config) (sl : Nat) (cuda : Bool)
    (fw1 : Nat → Batch → List (List ℚ)) (bs1 : List Batch)
    (hv : validModelType (pyLower cfg.model_type)) :
    train (sweepConfig cfg sl) cuda fw1 bs1 =
      train { cfg with input_length := sl } cuda fw1 bs1 := by
  have hv' : validModelType (pyLower (sweepConfig cfg sl).model_type) := by
    show validModelType (pyLower (pyLower cfg.model_type))
    rw [pyLower_of_valid _ hv]; exact hv
  have hv1 : validModelType
      (pyLower ({ cfg with input_length := sl } : Config).model_type) := hv
  rw [train_eq_of_valid _ cuda fw1 bs1 hv', train_eq_of_valid _ cuda fw1 bs1 hv1]
  simp only [theModel, sweepConfig, normConfig, pyLower_of_valid _ hv]

theorem sweepTrace_sweepConfig (cfg : Config) (sl sl' : Nat) (cuda : Bool)
    (fw : Nat → Nat → Batch → List (List ℚ)) (bsf : Nat → List Batch)
    (hv : validModelType (pyLower cfg.model_type)) :
    sweepTrace (sweepConfig cfg sl) cuda fw bsf sl' =
      sweepTrace cfg cuda fw bsf sl' := by
  rw [sweepTrace, sweepTrace, sweepConfig_sweepConfig cfg sl sl' hv]
  have hmt : pyLower (sweepConfig cfg sl).model_type = pyLower cfg.model_type := by
    show pyLower (pyLower cfg.model_type) = pyLower cfg.model_type
    rw [pyLower_of_valid _ hv]
  rw [hmt]

theorem sweepRecord_sweepConfig (cfg : Config) (sl sl' : Nat) (cuda : Bool)
    (fw : Nat → Nat → Batch → List (List ℚ)) (bsf : Nat → List Batch)
    (hv : validModelType (pyLower cfg.model_type)) :
    sweepRecord (sweepConfig cfg sl) cuda fw bsf sl' =
      sweepRecord cfg cuda fw bsf sl' := by
  rw [sweepRecord, sweepRecord, sweepConfig_sweepConfig cfg sl sl' hv]
  simp [sweepConfig]

/-- Full characterisation of the sweep loop on a configuration that passes
the assertion with the experiment flag set: every iteration succeeds, the
trace is the concatenation of the per-iteration traces (one statistics save
after every run), and the accumulated records are one `sweepRecord` per
length, in order. -/
theorem experimentLoop_ok (cuda : Bool)
    (fw : Nat → Nat → Batch → List (List ℚ)) (bsf : Nat → List Batch) :
    ∀ (lengths : List Nat) (cfg : Config) (recs : List RunRecord),
    validModelType (pyLower cfg.model_type) → cfg.experiment = true →
    experimentLoop cuda fw bsf lengths cfg recs =
      ((lengths.map (sweepTrace cfg cuda fw bsf)).flatten,
       Except.ok ((lengths.map (sweepConfig cfg)).getLastD cfg,
         recs ++ lengths.map (sweepRecord cfg cuda fw bsf))) := by
  intro lengths
  induction lengths with
  | nil => intro cfg recs hv he; simp [experimentLoop]
  | cons sl rest ih =>
    intro cfg recs hv he
    have hv1 : validModelType
        (pyLower ({ cfg with input_length := sl } : Config).model_type) := hv
    simp only [experimentLoop]
    rw [train_eq_of_valid _ cuda (fw sl) (bsf sl) hv1]
    dsimp only []
    rw [if_pos (show ({ cfg with input_length := sl } : Config).experiment =
      true from he)]
    dsimp only []
    have hv' : validModelType (pyLower (sweepConfig cfg sl).model_type) := by
      show validModelType (pyLower (pyLower cfg.model_type))
      rw [pyLower_of_valid _ hv]; exact hv
    have he' : (sweepConfig cfg sl).experiment = true := he
    have hns : normConfig { cfg with input_length := sl } = sweepConfig cfg sl :=
      rfl
    rw [hns]
    rw [ih (sweepConfig cfg sl) _ hv' he']
    rw [List.map_cons, List.map_cons, List.map_cons, List.flatten_cons,
      List.getLastD_cons]
    have hmapT : rest.map (sweepTrace (sweepConfig cfg sl) cuda fw bsf) =
        rest.map (sweepTrace cfg cuda fw bsf) :=
      List.map_congr_left (fun sl' _ =>
        sweepTrace_sweepConfig cfg sl sl' cuda fw bsf hv)
    have hmapC : rest.map (sweepConfig (sweepConfig cfg sl)) =
        rest.map (sweepConfig cfg) :=
      List.map_congr_left (fun sl' _ => sweepConfig_sweepConfig cfg sl sl' hv)
    have hmapR : rest.map (sweepRecord (sweepConfig cfg sl) cuda fw bsf) =
        rest.map (sweepRecord cfg cuda fw bsf) :=
      List.map_congr_left (fun sl' _ =>
        sweepRecord_sweepConfig cfg sl sl' cuda fw bsf hv)
    rw [hmapT, hmapC, hmapR]
    have htrace : sweepTrace cfg cuda fw bsf sl =
        (train { cfg with input_length := sl } cuda (fw sl) (bsf sl)).1 ++
          [Event.numpySave ("experiment_stats_500" ++ pyLower cfg.model_type ++
            toString (500 : Nat))] := by
      rw [sweepTrace, train_sweepConfig cfg sl cuda (fw sl) (bsf sl) hv]
    rw [htrace, train_eq_of_valid _ cuda (fw sl) (bsf sl) hv1]
    simp [sweepRecord, sweepConfig, normConfig]

theorem numpySaves_train (cfg : Config) (cuda : Bool)
    (fw1 : Nat → Batch → List (List ℚ)) (bs1 : List Batch)
    (hv : validModelType (pyLower cfg.model_type)) :
    numpySaves (train cfg cuda fw1 bs1).1 =
      ["train_acc_" ++ pyLower cfg.model_type ++ toString cfg.input_length] := by
  rw [train_eq_of_valid _ cuda fw1 bs1 hv, numpySaves_append, numpySaves_append,
    numpySaves_loop]
  simp [numpySaves]

theorem numpySaves_flatten (L : List (List Event)) :
    numpySaves L.flatten = (L.map numpySaves).flatten :=
  List.filterMap_flatten _ L

theorem numpySaves_sweepTrace (cfg : Config) (cuda : Bool)
    (fw : Nat → Nat → Batch → List (List ℚ)) (bsf : Nat → List Batch)
    (sl : Nat) (hv : validModelType (pyLower cfg.model_type)) :
    numpySaves (sweepTrace cfg cuda fw bsf sl) =
      ["train_acc_" ++ pyLower cfg.model_type ++ toString sl,
       "experiment_stats_500" ++ pyLower cfg.model_type ++ toString (500 : Nat)] := by
  have hv' : validModelType (pyLower (sweepConfig cfg sl).model_type) := by
    show validModelType (pyLower (pyLower cfg.model_type))
    rw [pyLower_of_valid _ hv]; exact hv
  rw [sweepTrace, numpySaves_append, numpySaves_train _ cuda _ _ hv']
  have hmt : pyLower (sweepConfig cfg sl).model_type = pyLower cfg.model_type := by
    show pyLower (pyLower cfg.model_type) = pyLower cfg.model_type
    rw [pyLower_of_valid _ hv]
  rw [hmt]
  rfl

/-- C3: with the experiment option enabled, the driver sweeps the sequence
lengths 50, 100, ..., 500 (inclusive, step 50, increasing): for each it
sets `config.input_length`, runs one full training run, appends the
returned statistics extended with every configuration entry, and saves the
accumulated statistics after every run; with the option disabled it instead
performs a single training run at the configured `input_length`. -/
theorem claim_C3_experiment_sweep (cfg : Config) (cuda : Bool)
    (fw : Nat → Nat → Batch → List (List ℚ)) (bsf : Nat → List Batch)
    (hv : validModelType (pyLower cfg.model_type))
    (he : cfg.experiment = true) :
    pyRange 50 (500 + 1) 50 =
      [50, 100, 150, 200, 250, 300, 350, 400, 450, 500] ∧
    experiment cfg cuda fw bsf =
      (((pyRange 50 (500 + 1) 50).map (sweepTrace cfg cuda fw bsf)).flatten,
       Except.ok
         (((pyRange 50 (500 + 1) 50).map (sweepConfig cfg)).getLastD cfg,
          (pyRange 50 (500 + 1) 50).map (sweepRecord cfg cuda fw bsf))) ∧
    (pyRange 50 (500 + 1) 50).map
        (fun sl => (sweepRecord cfg cuda fw bsf sl).configEntries.input_length) =
      pyRange 50 (500 + 1) 50 ∧
    (∀ cfg' : Config, cfg'.experiment = false →
      mainDispatch cfg' cuda fw bsf =
        ((train cfg' cuda (fw cfg'.input_length) (bsf cfg'.input_length)).1,
         MainOutcome.singleRun
           (train cfg' cuda (fw cfg'.input_length) (bsf cfg'.input_length)).2)) := by
  refine ⟨by decide, ?_, ?_, ?_⟩
  · rw [experiment, experimentLoop_ok cuda fw bsf _ cfg [] hv he]
    rw [List.nil_append]
  · have hpt : ∀ sl ∈ pyRange 50 (500 + 1) 50,
        (sweepRecord cfg cuda fw bsf sl).configEntries.input_length = sl :=
      fun sl _ => rfl
    rw [List.map_congr_left hpt]
    simp
  · intro cfg' hf
    rw [mainDispatch, if_neg]
    rw [hf]
    simp

/-- Witness for C3 at a concrete configuration: the sweep equality, fully
instantiated. -/
theorem claim_C3_witness :
    experiment ⟨"RRN", 10, 1, 10, 128, 128, 1/1000, 10000, 10, "cpu", true,
        100⟩ false (fun _ _ _ => []) (fun _ => []) =
      (((pyRange 50 (500 + 1) 50).map
          (sweepTrace ⟨"RRN", 10, 1, 10, 128, 128, 1/1000, 10000, 10, "cpu",
            true, 100⟩ false (fun _ _ _ => []) (fun _ => []))).flatten,
       Except.ok
         (((pyRange 50 (500 + 1) 50).map
             (sweepConfig ⟨"RRN", 10, 1, 10, 128, 128, 1/1000, 10000, 10,
               "cpu", true, 100⟩)).getLastD
           ⟨"RRN", 10, 1, 10, 128, 128, 1/1000, 10000, 10, "cpu", true, 100⟩,
          (pyRange 50 (500 + 1) 50).map
            (sweepRecord ⟨"RRN", 10, 1, 10, 128, 128, 1/1000, 10000, 10,
              "cpu", true, 100⟩ false (fun _ _ _ => []) (fun _ => [])))) :=
  (claim_C3_experiment_sweep _ false (fun _ _ _ => []) (fun _ => [])
    (by decide) rfl).2.1

/-- C7: after the loop, `train` saves exactly two artifacts — the model to
`'<model_type>_model.pt'` via `torch.save` and the accuracy array to
`'train_acc_<model_type><input_length>'` via `numpy.save`; the only other
`numpy.save` in the script is the per-iteration experiment-statistics save
inside `experiment`, so each sweep iteration performs exactly those two
`numpy.save` calls. -/
theorem claim_C7_artifact_saves (cfg : Config) (cuda : Bool)
    (fw1 : Nat → Batch → List (List ℚ)) (bs1 : List Batch)
    (fw : Nat → Nat → Batch → List (List ℚ)) (bsf : Nat → List Batch)
    (hv : validModelType (pyLower cfg.model_type)) :
    saveEvents (train cfg cuda fw1 bs1).1 =
      [Event.torchSave (pyLower cfg.model_type ++ "_model.pt"),
       Event.numpySave ("train_acc_" ++ pyLower cfg.model_type ++
         toString cfg.input_length)] ∧
    (cfg.experiment = true →
      numpySaves (experiment cfg cuda fw bsf).1 =
        (pyRange 50 (500 + 1) 50).flatMap (fun sl =>
          ["train_acc_" ++ pyLower cfg.model_type ++ toString sl,
           "experiment_stats_500" ++ pyLower cfg.model_type ++
             toString (500 : Nat)])) := by
  constructor
  · rw [train_eq_of_valid _ cuda fw1 bs1 hv, saveEvents_append,
      saveEvents_append, saveEvents_loop]
    simp [saveEvents]
  · intro he
    rw [experiment, experimentLoop_ok cuda fw bsf _ cfg [] hv he]
    rw [numpySaves_flatten, List.map_map]
    rw [List.map_congr_left (fun sl _ =>
      show (numpySaves ∘ sweepTrace cfg cuda fw bsf) sl =
          ["train_acc_" ++ pyLower cfg.model_type ++ toString sl,
           "experiment_stats_500" ++ pyLower cfg.model_type ++
             toString (500 : Nat)] from
        numpySaves_sweepTrace cfg cuda fw bsf sl hv)]
    rw [← List.flatMap_def]

/-- Witness for C7 at a concrete configuration. -/
theorem claim_C7_witness :
    saveEvents (train ⟨"RNN", 10, 1, 10, 128, 128, 1/1000, 10000, 10, "cpu",
        true, 100⟩ false (fun _ _ => []) []).1 =
      [Event.torchSave "rnn_model.pt", Event.numpySave "train_acc_rnn10"] ∧
    numpySaves (experiment ⟨"RNN", 10, 1, 10, 128, 128, 1/1000, 10000, 10,
        "cpu", true, 100⟩ false (fun _ _ _ => []) (fun _ => [])).1 =
      (pyRange 50 (500 + 1) 50).flatMap (fun sl =>
        ["train_acc_rnn" ++ toString sl, "experiment_stats_500rnn500"]) :=
  ⟨((claim_C7_artifact_saves _ false (fun _ _ => []) [] (fun _ _ _ => [])
      (fun _ => []) (by decide)).1).trans (by decide),
   (((claim_C7_artifact_saves ⟨"RNN", 10, 1, 10, 128, 128, 1/1000, 10000, 10,
        "cpu", true, 100⟩ false (fun _ _ => []) [] (fun _ _ _ => [])
      (fun _ => []) (by decide)).2 rfl)).trans (by decide)⟩

end TrainPy

